import Mathlib

/-!
Shallow embedding of the simple to-do application:
* the SQLite-backed task store (`src/todo_backend/db/index.js`),
* the Express REST handlers over it (backend `server.js`),
* the client sync hook (`src/todo_frontend/src/hooks/useTodos.js`).

Timestamps are the ISO-8601 strings produced by `new Date().toISOString()`;
SQLite compares `TEXT` values bytewise, which is the lexicographic order on
the stored strings, so timestamps are modelled as `String` with its order.
-/

namespace TodoApp

/-- Time values (`DATETIME` columns store the ISO string that was inserted). -/
abbrev Timestamp := String

/-! ### JavaScript primitives used by the source -/

/-- JS `s || d` on strings: a string is falsy exactly when it is empty. -/
def jsOr (s d : String) : String :=
  if s = "" then d else s

/-- Character-list version of JS `String.prototype.trim`:
drop whitespace from the front, then from the back. -/
def trimChars (l : List Char) : List Char :=
  ((l.dropWhile Char.isWhitespace).reverse.dropWhile Char.isWhitespace).reverse

/-- JS `s.trim()`. -/
def jsTrim (s : String) : String :=
  String.mk (trimChars s.data)

/-- JS destructuring `const { title } = body` followed by `String(title || "")`:
an absent (`undefined`) title becomes the empty string. -/
def jsStringOrEmpty (x : Option String) : String :=
  match x with
  | none => ""
  | some s => jsOr s ""

/-! ### Task store (`db/index.js`) -/

/-- One row of the `tasks` table created by `initDatabase`:
`id INTEGER PRIMARY KEY AUTOINCREMENT, title TEXT NOT NULL,
completed INTEGER NOT NULL DEFAULT 0, created_at DATETIME NOT NULL,
updated_at DATETIME`. -/
structure Row where
  id : Nat
  title : String
  completed : Nat
  created_at : Timestamp
  updated_at : Option Timestamp
deriving DecidableEq

/-- The API-facing object produced by `mapRow`. -/
structure Task where
  id : Nat
  title : String
  completed : Bool
  createdAt : Timestamp
  updatedAt : Option Timestamp
deriving DecidableEq

/-- JS `row.updated_at || null`: both SQL `NULL` and the (never actually stored)
empty string are falsy and map to `null`. -/
def jsOrNull (x : Option Timestamp) : Option Timestamp :=
  match x with
  | none => none
  | some s => if s = "" then none else some s

/-- Source `mapRow`: convert a DB row into an API-friendly todo object
(`completed: !!row.completed`). -/
def mapRow (r : Row) : Task :=
  { id := r.id
    title := r.title
    completed := r.completed != 0
    createdAt := r.created_at
    updatedAt := jsOrNull r.updated_at }

/-- Database state: the `tasks` table rows in rowid order, plus the
`AUTOINCREMENT` counter (SQLite guarantees the next assigned id is strictly
larger than every id ever issued, so deleted ids are never reused). -/
structure DB where
  rows : List Row
  nextId : Nat
deriving DecidableEq

/-- The freshly initialised database: empty table, ids start at 1. -/
def emptyDB : DB :=
  { rows := [], nextId := 1 }

/-- Source `getTaskById` (internal helper): `SELECT ... WHERE id = ?`, mapped
through `mapRow`; `undefined` row resolves to `null`. -/
def getTaskById (db : DB) (id : Nat) : Option Task :=
  (db.rows.find? (fun r => r.id == id)).map mapRow

/-- Source `createTask({ title, completed = false })`: inserts
`(String(title || "").trim(), completed ? 1 : 0, now)` with the next
auto-increment id, then re-selects the row by its primary key (which is
exactly the inserted row) and returns it mapped. -/
def createTask (db : DB) (title : String) (completed : Bool) (now : Timestamp) :
    DB × Task :=
  let comp : Nat := if completed then 1 else 0
  let r : Row :=
    { id := db.nextId
      title := jsTrim (jsOr title "")
      completed := comp
      created_at := now
      updated_at := none }
  ({ rows := db.rows ++ [r], nextId := db.nextId + 1 }, mapRow r)

/-- The partial update object received by `updateTask`; `none` models a
property that is absent (`hasOwnProperty` is false). -/
structure Updates where
  title : Option String
  completed : Option Bool
deriving DecidableEq

/-- The `SET` clause built by `updateTask` applied to one row:
`title = String(updates.title || "").trim()` when supplied,
`completed = updates.completed ? 1 : 0` when supplied,
and always `updated_at = now`. -/
def applyUpdates (u : Updates) (now : Timestamp) (r : Row) : Row :=
  { r with
    title := match u.title with
      | some t => jsTrim (jsOr t "")
      | none => r.title
    completed := match u.completed with
      | some c => if c then 1 else 0
      | none => r.completed
    updated_at := some now }

/-- Source `updateTask(id, updates)`: when neither `title` nor `completed` is
supplied only `updated_at` would be in the `SET` clause, and the function
short-circuits to `getTaskById(id)` without running any `UPDATE`; otherwise
it runs `UPDATE tasks SET ... WHERE id = ?`, resolves `null` when
`this.changes === 0` (no row matched), and else re-selects the row. -/
def updateTask (db : DB) (id : Nat) (u : Updates) (now : Timestamp) :
    DB × Option Task :=
  if u.title = none ∧ u.completed = none then
    (db, getTaskById db id)
  else if (db.rows.find? (fun r => r.id == id)).isNone then
    (db, none)
  else
    let rows' := db.rows.map (fun r => if r.id = id then applyUpdates u now r else r)
    let db' : DB := { db with rows := rows' }
    (db', getTaskById db' id)

/-- Source `deleteTask(id)`: `DELETE FROM tasks WHERE id = ?`, resolving
`this.changes > 0`. -/
def deleteTask (db : DB) (id : Nat) : DB × Bool :=
  let rows' := db.rows.filter (fun r => r.id != id)
  ({ db with rows := rows' }, decide (rows'.length < db.rows.length))

/-- The output order of `SELECT ... ORDER BY created_at DESC, id DESC`:
`a` may come before `b` iff `a` has the later `created_at`, or equal
`created_at` and the larger-or-equal id. -/
def rowBefore (a b : Row) : Prop :=
  b.created_at < a.created_at ∨ (b.created_at = a.created_at ∧ b.id ≤ a.id)

instance decRowBefore : DecidableRel rowBefore := by
  intro a b
  unfold rowBefore
  exact inferInstance

instance totalRowBefore : IsTotal Row rowBefore := by
  constructor
  intro a b
  unfold rowBefore
  rcases lt_trichotomy a.created_at b.created_at with h | h | h
  · exact Or.inr (Or.inl h)
  · rcases Nat.le_total b.id a.id with hid | hid
    · exact Or.inl (Or.inr ⟨h.symm, hid⟩)
    · exact Or.inr (Or.inr ⟨h, hid⟩)
  · exact Or.inl (Or.inl h)

instance transRowBefore : IsTrans Row rowBefore := by
  constructor
  intro a b c hab hbc
  unfold rowBefore at hab hbc ⊢
  rcases hab with h1 | ⟨h1, h1'⟩
  · rcases hbc with h2 | ⟨h2, _⟩
    · exact Or.inl (h2.trans h1)
    · exact Or.inl (h2 ▸ h1)
  · rcases hbc with h2 | ⟨h2, h2'⟩
    · exact Or.inl (h1 ▸ h2)
    · exact Or.inr ⟨h2.trans h1, h2'.trans h1'⟩

/-- Source `getAllTasks()`: all rows ordered by `created_at DESC, id DESC`
(the `ORDER BY` realised as a sort), each mapped through `mapRow`. -/
def getAllTasks (db : DB) : List Task :=
  (List.insertionSort rowBefore db.rows).map mapRow

/-! ### REST handlers (backend `server.js`, `createApp`) -/

/-- Outcome of `POST /todos`. -/
inductive PostRes where
  | created (t : Task)
  | badRequest (message : String)
deriving DecidableEq

/-- Body of `POST /todos`; `none` models an absent (`undefined`) property. -/
structure PostBody where
  title : Option String
  completed : Option Bool
deriving DecidableEq

/-- The `POST /todos` handler: trims `String(title || "")`, answers
400 `Title is required` when the trimmed title is empty, else calls
`createTask({ title: trimmed, completed: !!completed })` and answers 201. -/
def postTodos (db : DB) (body : PostBody) (now : Timestamp) : DB × PostRes :=
  let trimmed := jsTrim (jsStringOrEmpty body.title)
  if trimmed = "" then
    (db, PostRes.badRequest "Title is required")
  else
    let res := createTask db trimmed (body.completed.getD false) now
    (res.1, PostRes.created res.2)

/-- Outcome of `PUT /todos/:id`. -/
inductive PutRes where
  | updated (t : Task)
  | badRequest (message : String)
  | notFound (message : String)
deriving DecidableEq

/-- Body of `PUT /todos/:id`; `none` models an absent property
(`typeof x !== "undefined"` is false). -/
structure PutBody where
  title : Option String
  completed : Option Bool
deriving DecidableEq

/-- The `PUT /todos/:id` handler: 400 unless the id parses as a finite number
greater than 0 (ids are naturals here, so only 0 is invalid); builds the
updates object from the supplied properties (`String(title)`, `!!completed`),
answers 404 when `updateTask` resolves `null`, else 200 with the task. -/
def putTodos (db : DB) (id : Nat) (body : PutBody) (now : Timestamp) :
    DB × PutRes :=
  if id = 0 then
    (db, PutRes.badRequest "Invalid id")
  else
    match updateTask db id { title := body.title, completed := body.completed }
        now with
    | (db', none) => (db', PutRes.notFound "Todo not found")
    | (db', some t) => (db', PutRes.updated t)

/-- Outcome of `DELETE /todos/:id`. -/
inductive DeleteRes where
  | noContent
  | badRequest (message : String)
  | notFound (message : String)
deriving DecidableEq

/-- The `DELETE /todos/:id` handler: 400 for an invalid id, 404 when nothing was
removed, 204 otherwise. -/
def deleteTodos (db : DB) (id : Nat) : DB × DeleteRes :=
  if id = 0 then
    (db, DeleteRes.badRequest "Invalid id")
  else
    match deleteTask db id with
    | (db', true) => (db', DeleteRes.noContent)
    | (db', false) => (db', DeleteRes.notFound "Todo not found")

/-- One REST request against the store, as used to describe the reachable
store states. -/
inductive Op where
  | post (body : PostBody) (now : Timestamp)
  | put (id : Nat) (body : PutBody) (now : Timestamp)
  | delete (id : Nat)
  | getAll
deriving DecidableEq

/-- State transition of one request (`GET /todos` reads only). -/
def applyOp (db : DB) (op : Op) : DB :=
  match op with
  | Op.post body now => (postTodos db body now).1
  | Op.put id body now => (putTodos db id body now).1
  | Op.delete id => (deleteTodos db id).1
  | Op.getAll => db

/-- Run a sequence of requests. -/
def applyOps (db : DB) (ops : List Op) : DB :=
  ops.foldl applyOp db

/-! ### Client sync hook (`useTodos.js`)

Each hook operation is modelled as a function of the pre-state and of the
outcome of the single `apiRequest` it issues (`Except.ok` with the parsed
JSON, or `Except.error` with the thrown error's `message`). The `Bool` in
the result records whether the operation issued that request. -/

/-- Hook state: `todos`, `loading`, `error`. -/
structure HookState where
  todos : List Task
  loading : Bool
  error : String
deriving DecidableEq

/-- The partial update object passed to `updateTodo` by its callers. -/
structure ClientUpdates where
  title : Option String
  completed : Option Bool
deriving DecidableEq

/-- The object spread `{ ...t, ...updates }`: supplied fields override. -/
def spreadTodo (t : Task) (u : ClientUpdates) : Task :=
  { t with
    title := u.title.getD t.title
    completed := u.completed.getD t.completed }

/-- Source `fetchTodos`: sets `loading`, clears `error`, replaces `todos` with the
response on success (`Array.isArray` always holds for the typed response),
sets `error` on failure, always clears `loading`. -/
def fetchTodos (s : HookState) (outcome : Except String (List Task)) :
    HookState :=
  let s1 := { s with loading := true, error := "" }
  match outcome with
  | Except.ok data => { s1 with todos := data, loading := false }
  | Except.error e =>
      { s1 with error := jsOr e "Failed to load todos", loading := false }

/-- Source `addTodo(title)`: returns early when the trimmed title is empty (no
request); otherwise `POST`s and on success prepends the created task, on
failure sets `error`. It never touches `error` on its success path. -/
def addTodo (s : HookState) (title : String) (outcome : Except String Task) :
    HookState × Bool :=
  if jsTrim title = "" then (s, false)
  else
    match outcome with
    | Except.ok created => ({ s with todos := created :: s.todos }, true)
    | Except.error e => ({ s with error := jsOr e "Failed to add todo" }, true)

/-- Source `updateTodo(id, updates)`: clears `error`, snapshots `prev`, applies the
spread optimistically to the matching element, unconditionally issues the
`PUT` (its body is `next.find(...)`, possibly `undefined`); on success
replaces the matching element by the server's task, on failure restores
`prev` and sets `error`. -/
def updateTodo (s : HookState) (id : Nat) (u : ClientUpdates)
    (outcome : Except String Task) : HookState × Bool :=
  let prev := s.todos
  let next := prev.map (fun t => if t.id = id then spreadTodo t u else t)
  let s1 : HookState := { s with error := "", todos := next }
  match outcome with
  | Except.ok updated =>
      ({ s1 with todos := next.map (fun t => if t.id = id then updated else t) },
        true)
  | Except.error e =>
      ({ s1 with todos := prev, error := jsOr e "Failed to update todo" }, true)

/-- Source `toggleComplete(id)`: returns (issuing no request) when no local task
matches, else delegates to `updateTodo(id, { completed: !target.completed })`. -/
def toggleComplete (s : HookState) (id : Nat) (outcome : Except String Task) :
    HookState × Bool :=
  match s.todos.find? (fun t => t.id == id) with
  | none => (s, false)
  | some target =>
      updateTodo s id { title := none, completed := some (!target.completed) }
        outcome

/-- Source `deleteTodo(id)`: clears `error`, snapshots `prev`, optimistically
filters the task out, issues the `DELETE`; on failure restores `prev`
and sets `error`. -/
def deleteTodo (s : HookState) (id : Nat) (outcome : Except String Unit) :
    HookState × Bool :=
  let prev := s.todos
  let s1 : HookState :=
    { s with error := "", todos := prev.filter (fun t => t.id != id) }
  match outcome with
  | Except.ok _ => (s1, true)
  | Except.error e =>
      ({ s1 with todos := prev, error := jsOr e "Failed to delete todo" }, true)

/-- The derived stats object. -/
structure Stats where
  total : Nat
  completed : Nat
  active : Nat
deriving DecidableEq

/-- Source `stats`: `total = todos.length`, `completed` counts completed todos,
`active = total - completed`. -/
def stats (todos : List Task) : Stats :=
  let total := todos.length
  let completed := (todos.filter (fun t => t.completed)).length
  { total := total, completed := completed, active := total - completed }

/-! ### Invariant predicates and concrete fixtures -/

/-- Every persisted title is non-empty after trimming (spec §3 invariant). -/
def goodTitles (db : DB) : Prop :=
  ∀ r ∈ db.rows, jsTrim r.title ≠ ""

instance decGoodTitles (db : DB) : Decidable (goodTitles db) := by
  unfold goodTitles
  exact List.decidableBAll _ db.rows

/-- A request whose supplied title, if any, has a non-empty trim. -/
def titleSafe (op : Op) : Prop :=
  match op with
  | Op.put _ body _ =>
      match body.title with
      | some t => jsTrim t ≠ ""
      | none => True
  | _ => True

instance decTitleSafe (op : Op) : Decidable (titleSafe op) := by
  unfold titleSafe
  cases op with
  | put id body now =>
      cases body with
      | mk title completed => cases title <;> exact inferInstance
  | post body now => exact inferInstance
  | delete id => exact inferInstance
  | getAll => exact inferInstance

/-- Every row id is below the auto-increment counter (holds in every
reachable database state). -/
def bounded (db : DB) : Prop :=
  ∀ r ∈ db.rows, r.id < db.nextId

instance decBounded (db : DB) : Decidable (bounded db) := by
  unfold bounded
  exact List.decidableBAll _ db.rows

/-- After a delete of `id`: the table is free of `id`, and `id` stays below
the auto-increment counter, so it can never reappear. -/
def avoidsId (id : Nat) (db : DB) : Prop :=
  bounded db ∧ id < db.nextId ∧ ∀ r ∈ db.rows, r.id ≠ id

/-- A concrete row used by the witnesses and counterexamples. -/
def exRow : Row :=
  { id := 1
    title := "Buy milk"
    completed := 0
    created_at := "2024-01-01T00:00:00.000Z"
    updated_at := none }

/-- A one-task store used by the witnesses and counterexamples. -/
def exDb : DB :=
  { rows := [exRow], nextId := 2 }

/-- A hook state carrying a stale error message. -/
def exHook : HookState :=
  { todos := [], loading := false, error := "previous failure" }

/-- A hook state with no todos. -/
def emptyHook : HookState :=
  { todos := [], loading := false, error := "" }

/-- A hook state holding the one example task. -/
def oneHook : HookState :=
  { todos := [mapRow exRow], loading := false, error := "" }

/-! ### Helper lemmas -/

theorem jsOr_empty (s : String) : jsOr s "" = s := by
  unfold jsOr
  split <;> simp_all

theorem dropWhile_dropWhile {α : Type} (p : α → Bool) (l : List α) :
    (l.dropWhile p).dropWhile p = l.dropWhile p := by
  induction l with
  | nil => rfl
  | cons a l ih =>
    by_cases h : p a
    · simpa [List.dropWhile_cons, h] using ih
    · simp [List.dropWhile_cons, h]

theorem head_dropWhile_false {α : Type} (p : α → Bool) (l : List α) {a : α}
    (h : (l.dropWhile p).head? = some a) : p a = false := by
  induction l with
  | nil => simp [List.dropWhile] at h
  | cons b l ih =>
    rw [List.dropWhile_cons] at h
    by_cases hb : p b
    · rw [if_pos hb] at h
      exact ih h
    · rw [if_neg hb] at h
      simp only [List.head?_cons, Option.some_inj] at h
      subst h
      exact Bool.eq_false_iff.mpr hb

theorem dropWhile_eq_self_of_head {α : Type} (p : α → Bool) (l : List α)
    (h : ∀ a, l.head? = some a → p a = false) : l.dropWhile p = l := by
  cases l with
  | nil => rfl
  | cons a l => simp [List.dropWhile_cons, h a rfl]

theorem trimChars_idem (l : List Char) :
    trimChars (trimChars l) = trimChars l := by
  unfold trimChars
  have hdv :
      (((l.dropWhile Char.isWhitespace).reverse.dropWhile Char.isWhitespace).reverse).dropWhile Char.isWhitespace
        = ((l.dropWhile Char.isWhitespace).reverse.dropWhile Char.isWhitespace).reverse := by
    apply dropWhile_eq_self_of_head
    intro a ha
    rw [List.head?_reverse] at ha
    have h2 :
        ((l.dropWhile Char.isWhitespace).reverse.takeWhile Char.isWhitespace)
            ++ ((l.dropWhile Char.isWhitespace).reverse.dropWhile Char.isWhitespace)
          = (l.dropWhile Char.isWhitespace).reverse :=
      List.takeWhile_append_dropWhile Char.isWhitespace
        (l.dropWhile Char.isWhitespace).reverse
    have h3 : (l.dropWhile Char.isWhitespace).reverse.getLast? = some a := by
      rw [← h2, List.getLast?_append, ha]
      rfl
    have h4 : (l.dropWhile Char.isWhitespace).head? = some a := by
      have h5 := List.head?_reverse (l.dropWhile Char.isWhitespace).reverse
      rw [List.reverse_reverse] at h5
      rw [h5, h3]
    exact head_dropWhile_false Char.isWhitespace l h4
  rw [hdv, List.reverse_reverse, dropWhile_dropWhile]

theorem jsTrim_idem (s : String) : jsTrim (jsTrim s) = jsTrim s := by
  show String.mk (trimChars (String.mk (trimChars s.data)).data)
      = String.mk (trimChars s.data)
  rw [show (String.mk (trimChars s.data)).data = trimChars s.data from rfl,
    trimChars_idem]

theorem filter_length_lt_of_mem {α : Type} {p : α → Bool} {l : List α} {a : α}
    (ha : a ∈ l) (hpa : p a = false) : (l.filter p).length < l.length := by
  induction l with
  | nil => cases ha
  | cons b l ih =>
    rw [List.filter_cons]
    rcases List.mem_cons.mp ha with rfl | hm
    · rw [if_neg (by simp [hpa])]
      exact Nat.lt_succ_of_le (List.length_filter_le p l)
    · by_cases hb : p b
      · rw [if_pos (by simp [hb])]
        simpa using Nat.succ_lt_succ (ih hm)
      · rw [if_neg (by simp [hb])]
        exact Nat.lt_succ_of_lt (ih hm)

theorem filter_length_lt_iff {α : Type} (p : α → Bool) (l : List α) :
    (l.filter p).length < l.length ↔ ∃ a ∈ l, p a = false := by
  constructor
  · intro h
    by_contra hc
    push_neg at hc
    have hall : ∀ a ∈ l, p a := by
      intro a ha
      cases hpa : p a with
      | false => exact absurd hpa (hc a ha)
      | true => rfl
    rw [List.filter_eq_self.mpr hall] at h
    exact Nat.lt_irrefl _ h
  · rintro ⟨a, ha, hpa⟩
    exact filter_length_lt_of_mem ha hpa

theorem forall2_map_self {α : Type} (R : α → α → Prop) (f : α → α)
    (l : List α) (h : ∀ a ∈ l, R a (f a)) : List.Forall₂ R l (l.map f) := by
  induction l with
  | nil => exact List.Forall₂.nil
  | cons a l ih =>
    exact List.Forall₂.cons (h a (by simp))
      (ih (fun b hb => h b (by simp [hb])))

theorem map_eq_self_of_ne {α : Type} (f : α → α) (l : List α)
    (h : ∀ a ∈ l, f a = a) : l.map f = l := by
  induction l with
  | nil => rfl
  | cons a l ih =>
    rw [List.map_cons, h a (by simp), ih (fun b hb => h b (by simp [hb]))]

/-! ### Claim theorems -/

/-- C10: for every local task list, the derived stats satisfy
`total = completed + active`, where `completed` counts the tasks with
`completed = true` and `active` counts the rest; since `stats` is a pure
function of `todos`, this holds in every reachable hook state. -/
theorem stats_total_split (todos : List Task) :
    (stats todos).total = (stats todos).completed + (stats todos).active ∧
    (stats todos).completed = (todos.filter (fun t => t.completed)).length ∧
    (stats todos).active = (todos.filter (fun t => !t.completed)).length := by
  refine ⟨?_, rfl, ?_⟩
  · show todos.length
        = (todos.filter (fun t => t.completed)).length
          + (todos.length - (todos.filter (fun t => t.completed)).length)
    have h := List.length_filter_le (fun t => t.completed) todos
    omega
  · show todos.length - (todos.filter (fun t => t.completed)).length
        = (todos.filter (fun t => !t.completed)).length
    have h := List.length_eq_length_filter_add (l := todos)
      (fun t => t.completed)
    have h2 := List.length_filter_le (fun t => t.completed) todos
    omega

/-- C4: for every store state, `getAllTasks` returns exactly the tasks of
the table (as a permutation of the mapped rows), ordered by `createdAt`
descending with ties broken by `id` descending. -/
theorem getAllTasks_ordering (db : DB) :
    (getAllTasks db).Pairwise (fun a b =>
      b.createdAt < a.createdAt ∨ (b.createdAt = a.createdAt ∧ b.id ≤ a.id)) ∧
    (getAllTasks db).Perm (db.rows.map mapRow) := by
  constructor
  · have hs : (List.insertionSort rowBefore db.rows).Pairwise rowBefore :=
      List.sorted_insertionSort rowBefore db.rows
    exact hs.map mapRow (fun a b h => h)
  · exact (List.perm_insertionSort rowBefore db.rows).map mapRow

/-- C1 counterexample: on the one-task store, `updateTask` with a partial
supplying neither `title` nor `completed` does not refresh `updatedAt` to
the current timestamp: it leaves the store untouched and returns the task
with its old `updatedAt` (here `none`, not the supplied `now`). -/
theorem updateTask_no_refresh_counterexample :
    (updateTask exDb 1 { title := none, completed := none }
        "2024-01-02T00:00:00.000Z").1 = exDb ∧
    ((updateTask exDb 1 { title := none, completed := none }
        "2024-01-02T00:00:00.000Z").2.map Task.updatedAt) = some none ∧
    (none : Option Timestamp) ≠ some "2024-01-02T00:00:00.000Z" := by
  refine ⟨by decide, by decide, by decide⟩

/-- C1 amended: with a partial supplying neither `title` nor `completed`,
`updateTask` performs no write at all: the store is unchanged and the
task's current representation (with its old `updatedAt`) is returned; for
an id with no task it returns `null` without creating a row. -/
theorem updateTask_no_fields (db : DB) (id : Nat) (now : Timestamp) :
    updateTask db id { title := none, completed := none } now
      = (db, getTaskById db id) ∧
    ((∀ r ∈ db.rows, r.id ≠ id) →
      updateTask db id { title := none, completed := none } now = (db, none)) := by
  have h1 : updateTask db id { title := none, completed := none } now
      = (db, getTaskById db id) := by
    unfold updateTask
    rw [if_pos ⟨rfl, rfl⟩]
  refine ⟨h1, fun h => ?_⟩
  rw [h1]
  unfold getTaskById
  rw [List.find?_eq_none.mpr (fun r hr => by simpa using h r hr)]
  rfl

/-- Witness for C1's amended theorem at a concrete missing id. -/
theorem updateTask_no_fields_witness :
    updateTask exDb 99 { title := none, completed := none }
        "2024-01-02T00:00:00.000Z" = (exDb, none) :=
  (updateTask_no_fields exDb 99 "2024-01-02T00:00:00.000Z").2 (by decide)

/-- C2: a `POST /todos` whose title trims to the empty string is answered
400 `Title is required` and no task row is created; a title with non-empty
trim succeeds, appends exactly one row, and the created task's title is the
trimmed input. -/
theorem postTodos_title_validation (db : DB) (body : PostBody) (now : Timestamp) :
    (jsTrim (jsStringOrEmpty body.title) = "" →
      postTodos db body now = (db, PostRes.badRequest "Title is required")) ∧
    (jsTrim (jsStringOrEmpty body.title) ≠ "" →
      (postTodos db body now).1.rows
          = db.rows ++
            [{ id := db.nextId
               title := jsTrim (jsStringOrEmpty body.title)
               completed := if body.completed.getD false then 1 else 0
               created_at := now
               updated_at := none }] ∧
      ∃ t, (postTodos db body now).2 = PostRes.created t ∧
        t.title = jsTrim (jsStringOrEmpty body.title)) := by
  have htitle : jsTrim (jsOr (jsTrim (jsStringOrEmpty body.title)) "")
      = jsTrim (jsStringOrEmpty body.title) := by
    rw [jsOr_empty, jsTrim_idem]
  constructor
  · intro h
    unfold postTodos
    rw [if_pos h]
  · intro h
    unfold postTodos
    rw [if_neg h]
    constructor
    · show db.rows ++
          [{ id := db.nextId
             title := jsTrim (jsOr (jsTrim (jsStringOrEmpty body.title)) "")
             completed := if body.completed.getD false then 1 else 0
             created_at := now
             updated_at := none }]
        = _
      rw [htitle]
    · refine ⟨mapRow
        { id := db.nextId
          title := jsTrim (jsOr (jsTrim (jsStringOrEmpty body.title)) "")
          completed := if body.completed.getD false then 1 else 0
          created_at := now
          updated_at := none }, rfl, ?_⟩
      show jsTrim (jsOr (jsTrim (jsStringOrEmpty body.title)) "")
          = jsTrim (jsStringOrEmpty body.title)
      exact htitle

/-- Witness for C2 at concrete inputs, one per branch: a blank title is
rejected leaving the store unchanged; a padded title is stored trimmed. -/
theorem postTodos_title_validation_witness :
    postTodos exDb { title := some "   ", completed := none } "t"
      = (exDb, PostRes.badRequest "Title is required") ∧
    ((postTodos exDb { title := some " Buy oat milk ", completed := none }
        "t").1.rows
      = exDb.rows ++
        [{ id := exDb.nextId
           title := jsTrim (jsStringOrEmpty (some " Buy oat milk "))
           completed :=
             if (none : Option Bool).getD false then 1 else 0
           created_at := "t"
           updated_at := none }] ∧
      ∃ t, (postTodos exDb { title := some " Buy oat milk ", completed := none }
          "t").2 = PostRes.created t ∧
        t.title = jsTrim (jsStringOrEmpty (some " Buy oat milk "))) :=
  ⟨(postTodos_title_validation exDb
      { title := some "   ", completed := none } "t").1 (by decide),
   (postTodos_title_validation exDb
      { title := some " Buy oat milk ", completed := none } "t").2 (by decide)⟩

/-- C5: on a store containing a task with the given id,
`updateTask(id, {completed: true})` succeeds and, row by row, changes only
the matching row's `completed` (to 1) and `updated_at` (to `now`); its
`id`, `title` and `created_at` are unchanged, and every other row is
entirely unchanged. -/
theorem updateTask_toggle_frame (db : DB) (id : Nat) (now : Timestamp)
    (hex : (db.rows.find? (fun r => r.id == id)).isSome = true) :
    (updateTask db id { title := none, completed := some true } now).2.isSome
        = true ∧
    List.Forall₂ (fun old new =>
        new.id = old.id ∧ new.title = old.title ∧
        new.created_at = old.created_at ∧
        (old.id = id → new.completed = 1 ∧ new.updated_at = some now) ∧
        (old.id ≠ id → new = old))
      db.rows
      (updateTask db id { title := none, completed := some true } now).1.rows := by
  obtain ⟨x, hx⟩ := Option.isSome_iff_exists.mp hex
  have hcond : ¬ ((({ title := none, completed := some true } : Updates).title
        = none)
      ∧ (({ title := none, completed := some true } : Updates).completed
        = none)) := by
    simp
  have hnotnone : ¬ ((db.rows.find? (fun r => r.id == id)).isNone = true) := by
    rw [hx]
    simp
  have hred : updateTask db id { title := none, completed := some true } now
      = ({ db with rows := db.rows.map (fun r =>
            if r.id = id then
              applyUpdates { title := none, completed := some true } now r
            else r) },
         getTaskById { db with rows := db.rows.map (fun r =>
            if r.id = id then
              applyUpdates { title := none, completed := some true } now r
            else r) } id) := by
    unfold updateTask
    rw [if_neg hcond, if_neg hnotnone]
  rw [hred]
  constructor
  · have hpf : ((fun r : Row => r.id == id) ∘ (fun r =>
        if r.id = id then
          applyUpdates { title := none, completed := some true } now r
        else r))
        = (fun r : Row => r.id == id) := by
      funext r
      by_cases h : r.id = id
      · simp [h, applyUpdates]
      · simp [h]
    show (((db.rows.map (fun r =>
        if r.id = id then
          applyUpdates { title := none, completed := some true } now r
        else r)).find? (fun r => r.id == id)).map mapRow).isSome = true
    rw [List.find?_map, hpf, hx]
    rfl
  · show List.Forall₂ _ db.rows (db.rows.map (fun r =>
        if r.id = id then
          applyUpdates { title := none, completed := some true } now r
        else r))
    apply forall2_map_self
    intro r _
    by_cases h : r.id = id
    · rw [if_pos h]
      exact ⟨rfl, rfl, rfl, fun _ => ⟨rfl, rfl⟩, fun hne => absurd h hne⟩
    · rw [if_neg h]
      exact ⟨rfl, rfl, rfl, fun heq => absurd heq h, fun _ => rfl⟩

theorem goodTitles_createTask (db : DB) (title : String) (c : Bool)
    (now : Timestamp) (hdb : goodTitles db) (ht : jsTrim title ≠ "") :
    goodTitles (createTask db title c now).1 := by
  intro r hr
  unfold createTask at hr
  rcases List.mem_append.mp hr with h1 | h1
  · exact hdb r h1
  · rcases List.mem_singleton.mp h1 with rfl
    show jsTrim (jsTrim (jsOr title "")) ≠ ""
    rw [jsOr_empty, jsTrim_idem]
    exact ht

theorem goodTitles_updateTask (db : DB) (id : Nat) (u : Updates)
    (now : Timestamp) (hdb : goodTitles db)
    (hu : ∀ t, u.title = some t → jsTrim t ≠ "") :
    goodTitles (updateTask db id u now).1 := by
  unfold updateTask
  by_cases h1 : u.title = none ∧ u.completed = none
  · rw [if_pos h1]
    exact hdb
  · rw [if_neg h1]
    by_cases h2 : (db.rows.find? (fun r => r.id == id)).isNone = true
    · rw [if_pos h2]
      exact hdb
    · rw [if_neg h2]
      intro r hr
      rcases List.mem_map.mp hr with ⟨r0, hr0, rfl⟩
      by_cases h3 : r0.id = id
      · rw [if_pos h3]
        show jsTrim (applyUpdates u now r0).title ≠ ""
        unfold applyUpdates
        cases hu' : u.title with
        | none => simpa using hdb r0 hr0
        | some t =>
          show jsTrim (jsTrim (jsOr t "")) ≠ ""
          rw [jsOr_empty, jsTrim_idem]
          exact hu t hu'
      · rw [if_neg h3]
        exact hdb r0 hr0

theorem goodTitles_applyOp (db : DB) (op : Op)
    (hdb : goodTitles db) (hop : titleSafe op) :
    goodTitles (applyOp db op) := by
  cases op with
  | getAll => exact hdb
  | post body now =>
    show goodTitles (postTodos db body now).1
    unfold postTodos
    by_cases h : jsTrim (jsStringOrEmpty body.title) = ""
    · rw [if_pos h]
      exact hdb
    · rw [if_neg h]
      exact goodTitles_createTask db (jsTrim (jsStringOrEmpty body.title))
        (body.completed.getD false) now hdb (by rwa [jsTrim_idem])
  | put id body now =>
    show goodTitles (putTodos db id body now).1
    unfold putTodos
    by_cases h : id = 0
    · rw [if_pos h]
      exact hdb
    · rw [if_neg h]
      have hgood : goodTitles (updateTask db id
          { title := body.title, completed := body.completed } now).1 := by
        apply goodTitles_updateTask db id _ now hdb
        intro t ht
        have ht' : body.title = some t := ht
        have hop' : (match body.title with
          | some u => jsTrim u ≠ ""
          | none => True) := hop
        rw [ht'] at hop'
        exact hop'
      revert hgood
      generalize updateTask db id
        { title := body.title, completed := body.completed } now = res
      cases res with
      | mk db' r =>
        cases r with
        | none => exact fun hgood => hgood
        | some t => exact fun hgood => hgood
  | delete id =>
    show goodTitles (deleteTodos db id).1
    unfold deleteTodos
    by_cases h : id = 0
    · rw [if_pos h]
      exact hdb
    · rw [if_neg h]
      have hsub : goodTitles (deleteTask db id).1 := by
        intro r hr
        exact hdb r (List.mem_of_mem_filter hr)
      revert hsub
      generalize deleteTask db id = res
      cases res with
      | mk db' b =>
        cases b with
        | false => exact fun hsub => hsub
        | true => exact fun hsub => hsub

theorem createTask_fst (db : DB) (title : String) (c : Bool)
    (now : Timestamp) :
    (createTask db title c now).1.nextId = db.nextId + 1 ∧
    (createTask db title c now).1.rows
      = db.rows ++ [{ id := db.nextId
                      title := jsTrim (jsOr title "")
                      completed := if c then 1 else 0
                      created_at := now
                      updated_at := none }] :=
  ⟨rfl, rfl⟩

theorem updateTask_fst_rows (db : DB) (id' : Nat) (u : Updates)
    (now : Timestamp) :
    (updateTask db id' u now).1.nextId = db.nextId ∧
    ∀ r ∈ (updateTask db id' u now).1.rows, ∃ r0 ∈ db.rows, r.id = r0.id := by
  unfold updateTask
  by_cases h1 : u.title = none ∧ u.completed = none
  · rw [if_pos h1]
    exact ⟨rfl, fun r hr => ⟨r, hr, rfl⟩⟩
  · rw [if_neg h1]
    by_cases h2 : (db.rows.find? (fun r => r.id == id')).isNone = true
    · rw [if_pos h2]
      exact ⟨rfl, fun r hr => ⟨r, hr, rfl⟩⟩
    · rw [if_neg h2]
      refine ⟨rfl, ?_⟩
      intro r hr
      rcases List.mem_map.mp hr with ⟨r0, hr0, rfl⟩
      by_cases h3 : r0.id = id'
      · rw [if_pos h3]
        exact ⟨r0, hr0, rfl⟩
      · rw [if_neg h3]
        exact ⟨r0, hr0, rfl⟩

theorem avoidsId_applyOp (id : Nat) (db : DB) (op : Op)
    (h : avoidsId id db) : avoidsId id (applyOp db op) := by
  obtain ⟨hb, hlt, hni⟩ := h
  cases op with
  | getAll => exact ⟨hb, hlt, hni⟩
  | post body now =>
    show avoidsId id (postTodos db body now).1
    unfold postTodos
    by_cases hc : jsTrim (jsStringOrEmpty body.title) = ""
    · rw [if_pos hc]
      exact ⟨hb, hlt, hni⟩
    · rw [if_neg hc]
      have hcf := createTask_fst db (jsTrim (jsStringOrEmpty body.title))
        (body.completed.getD false) now
      refine ⟨?_, ?_, ?_⟩
      · intro r hr
        rw [hcf.2] at hr
        rw [hcf.1]
        rcases List.mem_append.mp hr with h1 | h1
        · exact Nat.lt_succ_of_lt (hb r h1)
        · rcases List.mem_singleton.mp h1 with rfl
          exact Nat.lt_succ_self _
      · rw [hcf.1]
        exact Nat.lt_succ_of_lt hlt
      · intro r hr
        rw [hcf.2] at hr
        rcases List.mem_append.mp hr with h1 | h1
        · exact hni r h1
        · rcases List.mem_singleton.mp h1 with rfl
          exact (Nat.ne_of_lt hlt).symm
  | put pid body now =>
    show avoidsId id (putTodos db pid body now).1
    unfold putTodos
    by_cases hc : pid = 0
    · rw [if_pos hc]
      exact ⟨hb, hlt, hni⟩
    · rw [if_neg hc]
      have hup := updateTask_fst_rows db pid
        { title := body.title, completed := body.completed } now
      have hgoal : avoidsId id (updateTask db pid
          { title := body.title, completed := body.completed } now).1 := by
        refine ⟨?_, ?_, ?_⟩
        · intro r hr
          rcases hup.2 r hr with ⟨r0, hr0, heq⟩
          rw [heq, hup.1]
          exact hb r0 hr0
        · rw [hup.1]
          exact hlt
        · intro r hr
          rcases hup.2 r hr with ⟨r0, hr0, heq⟩
          rw [heq]
          exact hni r0 hr0
      revert hgoal
      generalize updateTask db pid
        { title := body.title, completed := body.completed } now = res
      cases res with
      | mk db' r =>
        cases r with
        | none => exact fun hg => hg
        | some t => exact fun hg => hg
  | delete did =>
    show avoidsId id (deleteTodos db did).1
    unfold deleteTodos
    by_cases hc : did = 0
    · rw [if_pos hc]
      exact ⟨hb, hlt, hni⟩
    · rw [if_neg hc]
      have hgoal : avoidsId id (deleteTask db did).1 := by
        refine ⟨?_, hlt, ?_⟩
        · intro r hr
          exact hb r (List.mem_of_mem_filter hr)
        · intro r hr
          exact hni r (List.mem_of_mem_filter hr)
      revert hgoal
      generalize deleteTask db did = res
      cases res with
      | mk db' b =>
        cases b with
        | false => exact fun hg => hg
        | true => exact fun hg => hg

theorem avoidsId_applyOps (id : Nat) (db : DB) (ops : List Op)
    (h : avoidsId id db) : avoidsId id (applyOps db ops) := by
  induction ops generalizing db with
  | nil => exact h
  | cons op ops ih => exact ih (applyOp db op) (avoidsId_applyOp id db op h)

/-- C6: `deleteTask` reports whether a matching row existed and removes it;
after a successful delete (on a store whose row ids are bounded by the
auto-increment counter, as in every reachable state) a second delete of the
same id returns false, and no request sequence can ever make `getAllTasks`
list that id again — auto-increment ids are never reused. -/
theorem deleteTask_removes_forever (db : DB) (id : Nat) (ops : List Op)
    (hb : bounded db) :
    ((deleteTask db id).2 = true ↔ ∃ r ∈ db.rows, r.id = id) ∧
    (∀ r ∈ (deleteTask db id).1.rows, r.id ≠ id) ∧
    ((deleteTask db id).2 = true →
      (deleteTask (deleteTask db id).1 id).2 = false ∧
      ∀ t ∈ getAllTasks (applyOps (deleteTask db id).1 ops), t.id ≠ id) := by
  have hmem : ∀ r ∈ (deleteTask db id).1.rows, r.id ≠ id := by
    intro r hr
    have hp := List.of_mem_filter (p := fun r : Row => r.id != id) hr
    simpa using hp
  have hiff : (deleteTask db id).2 = true ↔ ∃ r ∈ db.rows, r.id = id := by
    show decide ((db.rows.filter (fun r => r.id != id)).length
        < db.rows.length) = true ↔ _
    rw [decide_eq_true_eq, filter_length_lt_iff]
    constructor
    · rintro ⟨a, ha, hpa⟩
      exact ⟨a, ha, by simpa using hpa⟩
    · rintro ⟨a, ha, hpa⟩
      exact ⟨a, ha, by simpa using hpa⟩
  refine ⟨hiff, hmem, fun hdel => ⟨?_, ?_⟩⟩
  · show decide (((deleteTask db id).1.rows.filter
        (fun r => r.id != id)).length < (deleteTask db id).1.rows.length)
        = false
    rw [List.filter_eq_self.mpr (fun r hr => by simpa using hmem r hr)]
    simp
  · have hav : avoidsId id (deleteTask db id).1 := by
      rcases hiff.mp hdel with ⟨r, hr, hrid⟩
      refine ⟨?_, ?_, hmem⟩
      · intro r' hr'
        exact hb r' (List.mem_of_mem_filter hr')
      · show id < db.nextId
        rw [← hrid]
        exact hb r hr
    have hav' := avoidsId_applyOps id (deleteTask db id).1 ops hav
    intro t ht
    unfold getAllTasks at ht
    rcases List.mem_map.mp ht with ⟨r, hr, rfl⟩
    exact hav'.2.2 r ((List.mem_insertionSort rowBefore).mp hr)

/-- Witness for C6: delete the one task, then try to re-create and re-list. -/
theorem deleteTask_removes_forever_witness :
    ((deleteTask exDb 1).2 = true ↔ ∃ r ∈ exDb.rows, r.id = 1) ∧
    (∀ r ∈ (deleteTask exDb 1).1.rows, r.id ≠ 1) ∧
    ((deleteTask exDb 1).2 = true →
      (deleteTask (deleteTask exDb 1).1 1).2 = false ∧
      ∀ t ∈ getAllTasks (applyOps (deleteTask exDb 1).1
          [Op.post { title := some "Write report", completed := none } "t3"]),
        t.id ≠ 1) :=
  deleteTask_removes_forever exDb 1
    [Op.post { title := some "Write report", completed := none } "t3"]
    (by decide)

/-- C3 counterexample: starting from a store whose only task is titled
`"Buy milk"`, a `PUT` supplying the title `"   "` (empty trim) does not
leave the stored title unchanged — it overwrites it with the empty string,
producing a persisted task with an empty trimmed title. -/
theorem empty_title_update_counterexample :
    exDb.rows.map Row.title = ["Buy milk"] ∧
    ((putTodos exDb 1 { title := some "   ", completed := none } "t2").1.rows.map
        Row.title) = [""] ∧
    jsTrim "" = "" := by
  refine ⟨by decide, by decide, by decide⟩

/-- C3 amended: creates are rejected when the trimmed title is empty, so
creation preserves the non-empty-title invariant unconditionally; updates,
however, overwrite the title with its (possibly empty) trim, so the
invariant is preserved exactly over operation sequences in which every
supplied update title has a non-empty trim. -/
theorem titles_invariant (db : DB) (ops : List Op)
    (hdb : goodTitles db) (hops : ∀ op ∈ ops, titleSafe op) :
    goodTitles (applyOps db ops) := by
  induction ops generalizing db with
  | nil => exact hdb
  | cons op ops ih =>
    exact ih (applyOp db op)
      (goodTitles_applyOp db op hdb (hops op (by simp)))
      (fun o ho => hops o (by simp [ho]))

/-- Witness for C3's amended theorem: a create, a safe update and a delete
starting from the one-task store. -/
theorem titles_invariant_witness :
    goodTitles (applyOps exDb
      [Op.post { title := some " Write report ", completed := none } "t1",
       Op.put 1 { title := some "Buy oat milk", completed := some true } "t2",
       Op.delete 2, Op.getAll]) :=
  titles_invariant exDb
    [Op.post { title := some " Write report ", completed := none } "t1",
     Op.put 1 { title := some "Buy oat milk", completed := some true } "t2",
     Op.delete 2, Op.getAll]
    (by decide) (by decide)

theorem jsOr_ne_empty (s d : String) (hd : d ≠ "") : jsOr s d ≠ "" := by
  unfold jsOr
  by_cases h : s = ""
  · rw [if_pos h]
    exact hd
  · rw [if_neg h]
    exact h

/-- C7 counterexample: with no locally matching task, `updateTodo` still
issues the network request — the call is not guarded on a local match. -/
theorem updateTodo_calls_without_match :
    emptyHook.todos.find? (fun t => t.id == 1) = none ∧
    (updateTodo emptyHook 1 { title := none, completed := some true }
        (Except.ok (mapRow exRow))).2 = true := by
  refine ⟨by decide, by decide⟩

/-- C7 amended: when no task with `id` exists locally, `updateTodo` leaves
`todos` unchanged in value (the optimistic map and the reconciliation both
act as the identity) but still issues the `PUT` unconditionally; it is
`toggleComplete` that guards on a local match, issuing no request and
returning the state untouched when there is none. -/
theorem updateTodo_no_local_match (s : HookState) (id : Nat)
    (u : ClientUpdates) (outcome : Except String Task)
    (h : s.todos.find? (fun t => t.id == id) = none) :
    (updateTodo s id u outcome).1.todos = s.todos ∧
    (updateTodo s id u outcome).2 = true ∧
    toggleComplete s id outcome = (s, false) := by
  have hall : ∀ t ∈ s.todos, ¬ (t.id = id) := by
    intro t ht
    have hne := List.find?_eq_none.mp h t ht
    simpa using hne
  have hmap : ∀ f : Task → Task,
      s.todos.map (fun t => if t.id = id then f t else t) = s.todos := by
    intro f
    apply map_eq_self_of_ne
    intro t ht
    rw [if_neg (hall t ht)]
  refine ⟨?_, ?_, ?_⟩
  · cases outcome with
    | ok updated =>
      show ((s.todos.map (fun t => if t.id = id then spreadTodo t u else t)).map
          (fun t => if t.id = id then updated else t)) = s.todos
      rw [hmap (fun t => spreadTodo t u), hmap (fun _ => updated)]
    | error e => rfl
  · cases outcome with
    | ok updated => rfl
    | error e => rfl
  · unfold toggleComplete
    rw [h]

/-- Witness for C7's amended theorem with an empty local list. -/
theorem updateTodo_no_local_match_witness :
    (updateTodo emptyHook 1 { title := none, completed := some true }
        (Except.error "boom")).1.todos = emptyHook.todos ∧
    (updateTodo emptyHook 1 { title := none, completed := some true }
        (Except.error "boom")).2 = true ∧
    toggleComplete emptyHook 1 (Except.error "boom") = (emptyHook, false) :=
  updateTodo_no_local_match emptyHook 1
    { title := none, completed := some true } (Except.error "boom") (by decide)

/-- C8 counterexample: `addTodo` does not clear the error state at its
start — a stale error from an earlier operation survives a successful add. -/
theorem addTodo_keeps_stale_error :
    exHook.error = "previous failure" ∧
    (addTodo exHook "Buy milk" (Except.ok (mapRow exRow))).1.error
        = "previous failure" ∧
    ("previous failure" : String) ≠ "" := by
  refine ⟨rfl, by decide, by decide⟩

/-- C8 amended: `fetchTodos`, `updateTodo` and `deleteTodo` clear `error`
at their start and set it only on their own failure; `toggleComplete` does
so exactly when a matching task exists (otherwise it is a complete no-op);
`addTodo`, however, never clears a pre-existing error — on success it
leaves `error` unchanged, setting it only on its own failure (and with an
empty trimmed title it does nothing at all). -/
theorem hook_error_discipline (s : HookState) (title : String) (id : Nat)
    (u : ClientUpdates) (data : List Task) (t : Task) (e : String) :
    (fetchTodos s (Except.ok data)).error = "" ∧
    (fetchTodos s (Except.error e)).error = jsOr e "Failed to load todos" ∧
    (updateTodo s id u (Except.ok t)).1.error = "" ∧
    (updateTodo s id u (Except.error e)).1.error
        = jsOr e "Failed to update todo" ∧
    (deleteTodo s id (Except.ok ())).1.error = "" ∧
    (deleteTodo s id (Except.error e)).1.error
        = jsOr e "Failed to delete todo" ∧
    (s.todos.find? (fun x => x.id == id) = none →
      toggleComplete s id (Except.ok t) = (s, false)) ∧
    (jsTrim title ≠ "" →
      (addTodo s title (Except.ok t)).1.error = s.error ∧
      (addTodo s title (Except.error e)).1.error
          = jsOr e "Failed to add todo") ∧
    (jsTrim title = "" → addTodo s title (Except.ok t) = (s, false)) := by
  refine ⟨rfl, rfl, rfl, rfl, rfl, rfl, ?_, ?_, ?_⟩
  · intro h
    unfold toggleComplete
    rw [h]
  · intro h
    unfold addTodo
    rw [if_neg h, if_neg h]
    exact ⟨rfl, rfl⟩
  · intro h
    unfold addTodo
    rw [if_pos h]

/-- Witness for C8's amended theorem: the add branches and the unmatched
toggle at concrete inputs. -/
theorem hook_error_discipline_witness :
    ((addTodo exHook "Buy milk" (Except.ok (mapRow exRow))).1.error
        = exHook.error ∧
     (addTodo exHook "Buy milk" (Except.error "boom")).1.error
        = jsOr "boom" "Failed to add todo") ∧
    addTodo exHook "" (Except.ok (mapRow exRow)) = (exHook, false) ∧
    toggleComplete exHook 7 (Except.ok (mapRow exRow)) = (exHook, false) :=
  ⟨(hook_error_discipline exHook "Buy milk" 7
      { title := none, completed := none } [] (mapRow exRow)
      "boom").2.2.2.2.2.2.2.1 (by decide),
   (hook_error_discipline exHook "" 7
      { title := none, completed := none } [] (mapRow exRow)
      "boom").2.2.2.2.2.2.2.2 (by decide),
   (hook_error_discipline exHook "Buy milk" 7
      { title := none, completed := none } [] (mapRow exRow)
      "boom").2.2.2.2.2.2.1 (by decide)⟩

/-- C9: when the request issued by an optimistic update (including a
toggle of an existing task) or an optimistic remove fails, the controller
restores `todos` exactly to the pre-mutation snapshot and sets a non-empty
error. -/
theorem rollback_on_failure (s : HookState) (id : Nat) (u : ClientUpdates)
    (t : Task) (e : String)
    (ht : s.todos.find? (fun x => x.id == id) = some t) :
    (updateTodo s id u (Except.error e)).1.todos = s.todos ∧
    (updateTodo s id u (Except.error e)).1.error
        = jsOr e "Failed to update todo" ∧
    (updateTodo s id u (Except.error e)).1.error ≠ "" ∧
    (toggleComplete s id (Except.error e)).1.todos = s.todos ∧
    (toggleComplete s id (Except.error e)).1.error
        = jsOr e "Failed to update todo" ∧
    (deleteTodo s id (Except.error e)).1.todos = s.todos ∧
    (deleteTodo s id (Except.error e)).1.error
        = jsOr e "Failed to delete todo" ∧
    (deleteTodo s id (Except.error e)).1.error ≠ "" := by
  have htog : toggleComplete s id (Except.error e)
      = updateTodo s id { title := none, completed := some (!t.completed) }
          (Except.error e) := by
    unfold toggleComplete
    rw [ht]
  refine ⟨rfl, rfl, jsOr_ne_empty e _ (by decide), ?_, ?_, rfl, rfl,
    jsOr_ne_empty e _ (by decide)⟩
  · rw [htog]
    rfl
  · rw [htog]
    rfl

/-- Witness for C9 on the one-task hook state. -/
theorem rollback_on_failure_witness :
    (updateTodo oneHook 1 { title := some "New", completed := none }
        (Except.error "boom")).1.todos = oneHook.todos ∧
    (updateTodo oneHook 1 { title := some "New", completed := none }
        (Except.error "boom")).1.error = jsOr "boom" "Failed to update todo" ∧
    (updateTodo oneHook 1 { title := some "New", completed := none }
        (Except.error "boom")).1.error ≠ "" ∧
    (toggleComplete oneHook 1 (Except.error "boom")).1.todos
        = oneHook.todos ∧
    (toggleComplete oneHook 1 (Except.error "boom")).1.error
        = jsOr "boom" "Failed to update todo" ∧
    (deleteTodo oneHook 1 (Except.error "boom")).1.todos = oneHook.todos ∧
    (deleteTodo oneHook 1 (Except.error "boom")).1.error
        = jsOr "boom" "Failed to delete todo" ∧
    (deleteTodo oneHook 1 (Except.error "boom")).1.error ≠ "" :=
  rollback_on_failure oneHook 1 { title := some "New", completed := none }
    (mapRow exRow) "boom" (by decide)

/-- Witness for C5 on the one-task store. -/
theorem updateTask_toggle_frame_witness :
    (updateTask exDb 1 { title := none, completed := some true } "t").2.isSome
        = true ∧
    List.Forall₂ (fun old new =>
        new.id = old.id ∧ new.title = old.title ∧
        new.created_at = old.created_at ∧
        (old.id = 1 → new.completed = 1 ∧ new.updated_at = some "t") ∧
        (old.id ≠ 1 → new = old))
      exDb.rows
      (updateTask exDb 1 { title := none, completed := some true } "t").1.rows :=
  updateTask_toggle_frame exDb 1 "t" (by decide)

end TodoApp
